import Mathlib

/-
Shallow embedding of `src/sagemaker_scripts/train_resnet.py`: a SageMaker
training script that loads two directory-organised image datasets, trains a
residual-network classifier by mini-batch SGD, evaluates it on the
validation set, and persists the trained parameters together with the
metadata needed to reconstruct the model.

Numeric tensor values are embedded as rationals; an image tensor is a
flattened list of pixel values.  The classifier model itself
(`model_resnet.Resnet`) is an external collaborator whose source is not part
of this repository, so it is modelled from the spec; the same holds for the
framework primitives the script calls (`DataLoader`, `ImageFolder`,
`CrossEntropyLoss`), which are embedded with their documented semantics.
-/

namespace TrainResnet

/-- A sample produced by the dataset loader: an image tensor (flattened to a
list of rational pixel values) together with its integer class-label index. -/
structure Sample where
  image : List ℚ
  label : Nat
deriving DecidableEq

/-- Modelled from the spec: the classifier `model_resnet.Resnet` (imported on
line 20, source not in this repository) is "a parameterized function mapping
an image tensor to a vector of per-class scores; constructed with a single
configuration value (number of output classes)".  It carries its output
dimensionality, a parameter set, and the training/inference mode flag toggled
by `model.train()` / `model.eval()`. -/
structure Resnet where
  output_dim : Nat
  params : List ℚ
  training : Bool
deriving DecidableEq

/-- Modelled from the spec: the initial parameter values produced by the
`Resnet(output_dim)` constructor (a concrete deterministic stand-in). -/
def initParams (output_dim : Nat) : List ℚ :=
  (List.range output_dim).map (fun (i : Nat) => (i : ℚ) + 1)

/-- Constructing `Resnet(output_dim)` (lines 36 and 169): fresh parameters;
modules start in training mode. -/
def Resnet.init (output_dim : Nat) : Resnet :=
  { output_dim := output_dim, params := initParams output_dim, training := true }

/-- Modelled from the spec: the forward pass of the classifier collaborator,
producing one score per output class; a concrete stand-in fully determined by
the output dimension, the parameters, the mode flag and the input. -/
def Resnet.forward (m : Resnet) (x : List ℚ) : List ℚ :=
  (List.range m.output_dim).map (fun (i : Nat) =>
    m.params.sum * x.sum + (i : ℚ) +
      (if m.training then (m.params.length : ℚ) else 0))

/-- `model.eval()` — switch the model to inference mode (lines 44 and 74). -/
def Resnet.evalMode (m : Resnet) : Resnet := { m with training := false }

/-- `model.train()` — switch the model to training mode (line 105). -/
def Resnet.trainMode (m : Resnet) : Resnet := { m with training := true }

/-- `model.state_dict()` (line 191) — the serialisable parameter state. -/
def Resnet.state_dict (m : Resnet) : List ℚ := m.params

/-- `model.load_state_dict(...)` (line 41) — replace the parameters with the
deserialised state. -/
def Resnet.load_state_dict (m : Resnet) (sd : List ℚ) : Resnet :=
  { m with params := sd }

/-- `model.cpu()` (line 191) — moving the parameters to host memory leaves
their values unchanged; device placement is abstracted away. -/
def Resnet.cpu (m : Resnet) : Resnet := m

/-- Contents of the `model_info.pth` metadata file (lines 179-184): a mapping
holding the output dimension. -/
structure ModelInfo where
  output_dim : Nat
deriving DecidableEq

/-- The two companion artifact files written into the model directory:
`model_info.pth` and `model.pth` (lines 179-191). -/
structure SavedArtifacts where
  model_info : ModelInfo
  model_state : List ℚ
deriving DecidableEq

/-- The save path of `__main__` (lines 179-191): `model_info.pth` records
`args.output_dim`, and `model.pth` records `model.cpu().state_dict()`. -/
def save_artifacts (output_dim : Nat) (model : Resnet) : SavedArtifacts :=
  { model_info := { output_dim := output_dim },
    model_state := model.cpu.state_dict }

/-- `model_fn(model_dir)` (lines 22-47): read `model_info.pth`, construct
`Resnet(model_info['output_dim'])`, load `model.pth` into it, and switch to
inference mode. -/
def model_fn (a : SavedArtifacts) : Resnet :=
  ((Resnet.init a.model_info.output_dim).load_state_dict a.model_state).evalMode

/-- The forward pass emits one score per output class. -/
theorem Resnet.forward_length (m : Resnet) (x : List ℚ) :
    (m.forward x).length = m.output_dim := by
  unfold Resnet.forward
  rw [List.length_map, List.length_range]

/-- C3: saving `model_info.pth` (holding `output_dim`) and `model.pth` (the
parameter state) and loading them back through `model_fn` reconstructs a
model with exactly `output_dim` output scores per input whose outputs on any
input in inference mode equal the pre-save model's inference-mode outputs.
The hypothesis records the invariant of `__main__` that the saved
`args.output_dim` is the trained model's own output dimension. -/
theorem model_roundtrip (d : Nat) (m : Resnet) (x : List ℚ)
    (h : m.output_dim = d) :
    (model_fn (save_artifacts d m)).output_dim = d ∧
    ((model_fn (save_artifacts d m)).forward x).length = d ∧
    (model_fn (save_artifacts d m)).forward x = m.evalMode.forward x := by
  subst h
  exact ⟨rfl, Resnet.forward_length _ x, rfl⟩

/-- Witness for C3 at `output_dim = 5` (the spec's scenario), a concrete
parameter list and a concrete input. -/
theorem model_roundtrip_witness :
    (Resnet.mk 5 [2, 3] true).output_dim = 5 ∧
    ((model_fn (save_artifacts 5 (Resnet.mk 5 [2, 3] true))).output_dim = 5 ∧
     ((model_fn (save_artifacts 5 (Resnet.mk 5 [2, 3] true))).forward
         [1, 7]).length = 5 ∧
     (model_fn (save_artifacts 5 (Resnet.mk 5 [2, 3] true))).forward [1, 7] =
       (Resnet.mk 5 [2, 3] true).evalMode.forward [1, 7]) :=
  ⟨rfl, model_roundtrip 5 (Resnet.mk 5 [2, 3] true) [1, 7] rfl⟩

/-- Observable operations of the training loop `train` (lines 92-133),
tagged with the 1-based epoch number and the 0-based batch index the source
uses. -/
inductive Event where
  | setTrainMode (epoch : Nat)
  | zeroGrad (epoch batch : Nat)
  | forwardPass (epoch batch : Nat)
  | lossComputed (epoch batch : Nat)
  | backwardPass (epoch batch : Nat)
  | optStep (epoch batch : Nat)
  | logTrain (epoch batch : Nat)
  | evalRun
deriving DecidableEq

/-- One iteration of the inner batch loop (lines 109-130): clear the
gradients, forward pass, loss computation, backward pass, optimizer step,
then a progress log when `batch_idx % 20 == 0`. -/
def batchStep (epoch batch : Nat) : List Event :=
  [Event.zeroGrad epoch batch, Event.forwardPass epoch batch,
   Event.lossComputed epoch batch, Event.backwardPass epoch batch,
   Event.optStep epoch batch] ++
    (if batch % 20 == 0 then [Event.logTrain epoch batch] else [])

/-- The first `n` iterations (batch indices `0 .. n-1`, in order) of the
inner loop of `train` for a given epoch. -/
def epochBatches (epoch : Nat) : Nat → List Event
  | 0 => []
  | n + 1 => epochBatches epoch n ++ batchStep epoch n

/-- One epoch of `train` (lines 104-130): `model.train()` followed by the
batch loop. -/
def epochEvents (epoch numBatches : Nat) : List Event :=
  Event.setTrainMode epoch :: epochBatches epoch numBatches

/-- The first `k` epochs (`epoch = 1 .. k`, in order) of the outer loop of
`train`. -/
def epochsEvents (numBatches : Nat) : Nat → List Event
  | 0 => []
  | k + 1 => epochsEvents numBatches k ++ epochEvents (k + 1) numBatches

/-- The full event trace of one call to `train` (lines 92-133): the epoch
loop `for epoch in range(1, epochs + 1)`, followed by the single call
`test(model, test_loader, device, criterion)` on line 133, which is indented
at the level of the epoch loop and therefore runs after (outside) it. -/
def trainEvents (epochs numBatches : Nat) : List Event :=
  epochsEvents numBatches epochs ++ [Event.evalRun]

/-- Recogniser for the evaluation-routine event. -/
def isEvalRun : Event → Bool
  | Event.evalRun => true
  | _ => false

theorem countP_evalRun_batchStep (e b : Nat) :
    (batchStep e b).countP isEvalRun = 0 := by
  unfold batchStep
  by_cases h : b % 20 == 0 <;> simp [h, isEvalRun, List.countP_append, List.countP_cons]

theorem countP_evalRun_epochBatches (e : Nat) :
    ∀ n, (epochBatches e n).countP isEvalRun = 0 := by
  intro n
  induction n with
  | zero => rfl
  | succ n ih =>
      unfold epochBatches
      rw [List.countP_append, ih, countP_evalRun_batchStep]

theorem countP_evalRun_epochsEvents (N : Nat) :
    ∀ k, (epochsEvents N k).countP isEvalRun = 0 := by
  intro k
  induction k with
  | zero => rfl
  | succ k ih =>
      unfold epochsEvents
      rw [List.countP_append, ih]
      unfold epochEvents
      rw [List.countP_cons]
      rw [countP_evalRun_epochBatches]
      rfl

/-- C2 counterexample: with `epochs = 2` (and three batches per epoch) the
evaluation routine runs once per call to `train`, not once per epoch —
`test` on line 133 sits outside the epoch loop. -/
theorem eval_runs_once_for_two_epochs :
    (trainEvents 2 3).countP isEvalRun = 1 ∧ (1 : Nat) ≠ 2 := by
  constructor
  · decide
  · decide

/-- C2 (amended): for every epoch count `E ≥ 1` and batch count, the
training loop runs the Evaluation Routine exactly once per call to `train`,
after the final batch of the final epoch — it is the last event of the
trace. -/
theorem eval_runs_exactly_once (E N : Nat) (hE : 1 ≤ E) :
    (trainEvents E N).countP isEvalRun = 1 ∧
    (trainEvents E N).getLast? = some Event.evalRun := by
  constructor
  · unfold trainEvents
    rw [List.countP_append, countP_evalRun_epochsEvents]
    rfl
  · unfold trainEvents
    exact List.getLast?_concat _

/-- Witness for C2 (amended) at `E = 1`, `N = 2`. -/
theorem eval_runs_exactly_once_witness :
    1 ≤ 1 ∧
    ((trainEvents 1 2).countP isEvalRun = 1 ∧
     (trainEvents 1 2).getLast? = some Event.evalRun) :=
  ⟨Nat.le_refl 1, eval_runs_exactly_once 1 2 (Nat.le_refl 1)⟩

/-- Recogniser for the five gradient-step operations of the batch at the
given epoch number and batch index. -/
def isStepOf (epoch batch : Nat) : Event → Bool
  | Event.zeroGrad e b => e == epoch && b == batch
  | Event.forwardPass e b => e == epoch && b == batch
  | Event.lossComputed e b => e == epoch && b == batch
  | Event.backwardPass e b => e == epoch && b == batch
  | Event.optStep e b => e == epoch && b == batch
  | _ => false

/-- The gradient-step operations of one batch, in the order the source
performs them (lines 114-122). -/
def gradStepSeq (epoch batch : Nat) : List Event :=
  [Event.zeroGrad epoch batch, Event.forwardPass epoch batch,
   Event.lossComputed epoch batch, Event.backwardPass epoch batch,
   Event.optStep epoch batch]

theorem filter_batchStep (e b e' b' : Nat) :
    (batchStep e' b').filter (isStepOf e b) =
      if e' = e ∧ b' = b then gradStepSeq e b else [] := by
  by_cases h : e' = e ∧ b' = b
  · obtain ⟨he, hb⟩ := h
    subst he
    subst hb
    unfold batchStep
    by_cases h20 : b' % 20 == 0 <;>
      simp [h20, isStepOf, gradStepSeq, List.filter_append]
  · rw [if_neg h]
    have hF : (e' == e && b' == b) = false := by
      rcases Decidable.em (e' = e) with he | he
      · have hb : b' ≠ b := fun hb => h ⟨he, hb⟩
        simp [he, hb]
      · simp [he]
    unfold batchStep
    by_cases h20 : b' % 20 == 0 <;>
      simp [h20, List.filter_append, List.filter_cons, isStepOf, hF]

theorem filter_epochBatches (e b e' : Nat) :
    ∀ n, (epochBatches e' n).filter (isStepOf e b) =
      if e' = e ∧ b < n then gradStepSeq e b else [] := by
  intro n
  induction n with
  | zero => simp [epochBatches]
  | succ n ih =>
      unfold epochBatches
      rw [List.filter_append, ih, filter_batchStep]
      by_cases he : e' = e
      · subst he
        by_cases hlt : b < n
        · have hne : ¬(n = b) := by omega
          simp [hlt, hne, Nat.lt_succ_of_lt hlt]
        · by_cases heq : n = b
          · subst heq
            simp [hlt, Nat.lt_succ_self]
          · have h2 : ¬(b < n + 1) := by omega
            simp [hlt, heq, h2]
      · simp [he]

theorem filter_epochsEvents (e b N : Nat) :
    ∀ k, (epochsEvents N k).filter (isStepOf e b) =
      if 1 ≤ e ∧ e ≤ k ∧ b < N then gradStepSeq e b else [] := by
  intro k
  induction k with
  | zero =>
      have h : ¬(1 ≤ e ∧ e ≤ 0 ∧ b < N) := by omega
      rw [if_neg h]
      rfl
  | succ k ih =>
      unfold epochsEvents
      rw [List.filter_append, ih]
      unfold epochEvents
      rw [List.filter_cons]
      have hstm : isStepOf e b (Event.setTrainMode (k + 1)) = false := rfl
      simp only [hstm, Bool.false_eq_true, if_false]
      rw [filter_epochBatches]
      by_cases hb : b < N
      · by_cases hek : 1 ≤ e ∧ e ≤ k
        · have h1 : 1 ≤ e ∧ e ≤ k ∧ b < N := ⟨hek.1, hek.2, hb⟩
          have h2 : ¬(k + 1 = e ∧ b < N) := by omega
          have h3 : 1 ≤ e ∧ e ≤ k + 1 ∧ b < N := by omega
          rw [if_pos h1, if_neg h2, if_pos h3, List.append_nil]
        · by_cases hke : k + 1 = e
          · have h1 : ¬(1 ≤ e ∧ e ≤ k ∧ b < N) := by omega
            have h2 : k + 1 = e ∧ b < N := ⟨hke, hb⟩
            have h3 : 1 ≤ e ∧ e ≤ k + 1 ∧ b < N := by omega
            rw [if_pos h2, if_neg h1, if_pos h3, List.nil_append]
          · have h1 : ¬(1 ≤ e ∧ e ≤ k ∧ b < N) := by omega
            have h2 : ¬(k + 1 = e ∧ b < N) := by omega
            have h3 : ¬(1 ≤ e ∧ e ≤ k + 1 ∧ b < N) := by omega
            rw [if_neg h1, if_neg h2, if_neg h3, List.nil_append]
      · have h1 : ¬(1 ≤ e ∧ e ≤ k ∧ b < N) := by omega
        have h2 : ¬(k + 1 = e ∧ b < N) := by omega
        have h3 : ¬(1 ≤ e ∧ e ≤ k + 1 ∧ b < N) := by omega
        rw [if_neg h1, if_neg h2, if_neg h3, List.nil_append]

/-- C5: for every batch the training loop processes (epoch `1 ≤ e ≤ E`,
batch index `b < N`), the trace restricted to that batch's gradient-step
operations is exactly `zero_grad`, forward pass, loss computation,
`loss.backward()`, `optimizer.step()` — one optimizer step per batch, in
that fixed order, with the parameter update after the backward pass. -/
theorem gradient_step_order (E N e b : Nat)
    (he1 : 1 ≤ e) (he2 : e ≤ E) (hb : b < N) :
    (trainEvents E N).filter (isStepOf e b) = gradStepSeq e b := by
  unfold trainEvents
  rw [List.filter_append, filter_epochsEvents]
  have h : 1 ≤ e ∧ e ≤ E ∧ b < N := ⟨he1, he2, hb⟩
  have hev : ([Event.evalRun].filter (isStepOf e b)) = [] := rfl
  rw [hev, if_pos h, List.append_nil]

/-- Witness for C5 at `E = 2`, `N = 3`, epoch 2, batch 1. -/
theorem gradient_step_order_witness :
    (1 ≤ 2 ∧ 2 ≤ 2 ∧ 1 < 3) ∧
    (trainEvents 2 3).filter (isStepOf 2 1) = gradStepSeq 2 1 :=
  ⟨by omega, gradient_step_order 2 3 2 1 (by omega) (by omega) (by omega)⟩

/-- Index of the (first) maximum entry of a score vector —
`output.max(1, keepdim=True)[1]` on line 82, the predicted class label. -/
def argmaxAux : List ℚ → Nat → Nat → ℚ → Nat
  | [], _, best, _ => best
  | x :: xs, i, best, bestVal =>
      if bestVal < x then argmaxAux xs (i + 1) i x
      else argmaxAux xs (i + 1) best bestVal

/-- Predicted label of a score vector. -/
def argmaxIdx : List ℚ → Nat
  | [] => 0
  | x :: xs => argmaxAux xs 1 0 x

/-- Number of correct top-1 predictions in one batch —
`pred.eq(target.view_as(pred)).sum().item()` on lines 82-83. -/
def batchCorrect (m : Resnet) (batch : List Sample) : Nat :=
  batch.countP (fun s => argmaxIdx (m.forward s.image) == s.label)

/-- The batch loop of `test` (lines 77-83): accumulate, over the validation
batches in order, the total of the per-batch criterion values
(`test_loss += criterion(output, target).item()`) and the total number of
correct predictions.  The criterion is called once per batch on the batch
outputs and targets, exactly as `criterion(output, target)` is. -/
def testAccum (m : Resnet) (criterion : List (List ℚ) → List Nat → ℚ) :
    List (List Sample) → ℚ × Nat
  | [] => (0, 0)
  | batch :: rest =>
      let outputs := batch.map (fun s => m.forward s.image)
      let targets := batch.map Sample.label
      let r := testAccum m criterion rest
      (criterion outputs targets + r.1, batchCorrect m batch + r.2)

/-- `len(test_loader.dataset)` — total number of validation samples. -/
def datasetSize (loader : List (List Sample)) : Nat :=
  (loader.map List.length).sum

/-- Result of the Evaluation Routine `test` (lines 73-88): the model after
the call (`model.eval()` switched it to inference mode), the reported
average loss `test_loss / len(test_loader.dataset)` (line 85) and the
accuracy percentage `100. * correct / len(test_loader.dataset)` (line 88). -/
structure TestResult where
  model : Resnet
  test_loss : ℚ
  correct : Nat
  total : Nat
  accuracy : ℚ

/-- The Evaluation Routine `test(model, test_loader, device, criterion)`
(lines 73-88).  The validation loader is embedded as its list of batches;
gradient tracking (`torch.no_grad()`) has no observable effect in the
embedding beyond the absence of any parameter update. -/
def test (model : Resnet) (test_loader : List (List Sample))
    (criterion : List (List ℚ) → List Nat → ℚ) : TestResult :=
  let m := model.evalMode
  let r := testAccum m criterion test_loader
  let n := datasetSize test_loader
  { model := m, test_loss := r.1 / (n : ℚ), correct := r.2, total := n,
    accuracy := 100 * (r.2 : ℚ) / (n : ℚ) }

/-- C7: the Evaluation Routine never mutates the model's parameters — the
parameter values after `test` returns are identical to their values before
the call. -/
theorem test_preserves_params (m : Resnet) (loader : List (List Sample))
    (criterion : List (List ℚ) → List Nat → ℚ) :
    (test m loader criterion).model.params = m.params := rfl

/-- The correct-prediction count never exceeds the number of samples. -/
theorem testAccum_correct_le (m : Resnet)
    (criterion : List (List ℚ) → List Nat → ℚ) :
    ∀ loader : List (List Sample),
      (testAccum m criterion loader).2 ≤ datasetSize loader := by
  intro loader
  induction loader with
  | nil => exact Nat.le_refl 0
  | cons batch rest ih =>
      unfold testAccum datasetSize
      simp only [List.map_cons, List.sum_cons]
      have h1 : batchCorrect m batch ≤ batch.length :=
        List.countP_le_length _
      exact Nat.add_le_add h1 ih

/-- With a nonnegative criterion the accumulated loss is nonnegative. -/
theorem testAccum_loss_nonneg (m : Resnet)
    (criterion : List (List ℚ) → List Nat → ℚ)
    (hc : ∀ os ts, 0 ≤ criterion os ts) :
    ∀ loader : List (List Sample), 0 ≤ (testAccum m criterion loader).1 := by
  intro loader
  induction loader with
  | nil => exact le_refl 0
  | cons batch rest ih =>
      unfold testAccum
      exact add_nonneg (hc _ _) ih

/-- C6 counterexample: the claim quantifies over every loss function, but
for the batch criterion that is constantly `-1` the reported average loss of
`test` is `-1 < 0`. -/
theorem test_loss_negative_for_negative_criterion :
    (test (Resnet.init 2) [[Sample.mk [1] 0]] (fun _ _ => -1)).test_loss = -1 ∧
    ¬(0 ≤ (test (Resnet.init 2) [[Sample.mk [1] 0]]
        (fun _ _ => -1)).test_loss) := by
  constructor
  · norm_num [test, testAccum, datasetSize]
  · norm_num [test, testAccum, datasetSize]

/-- C6 (amended): for every model, non-empty validation loader, and loss
function whose per-batch values are nonnegative (as the cross-entropy
criterion the script uses is), the accuracy `100 * correct / N` reported by
`test` lies in `[0, 100]` and the reported average loss is `≥ 0`. -/
theorem test_metrics_in_range (m : Resnet) (loader : List (List Sample))
    (criterion : List (List ℚ) → List Nat → ℚ)
    (hne : 1 ≤ datasetSize loader)
    (hc : ∀ os ts, 0 ≤ criterion os ts) :
    0 ≤ (test m loader criterion).accuracy ∧
    (test m loader criterion).accuracy ≤ 100 ∧
    0 ≤ (test m loader criterion).test_loss := by
  have hnpos : (0 : ℚ) < (datasetSize loader : ℚ) := by
    exact_mod_cast Nat.lt_of_lt_of_le Nat.zero_lt_one hne
  refine ⟨?_, ?_, ?_⟩
  · apply div_nonneg _ (le_of_lt hnpos)
    positivity
  · show 100 * ((testAccum m.evalMode criterion loader).2 : ℚ) /
        (datasetSize loader : ℚ) ≤ 100
    rw [div_le_iff₀ hnpos]
    have hcor : ((testAccum m.evalMode criterion loader).2 : ℚ) ≤
        (datasetSize loader : ℚ) := by
      exact_mod_cast testAccum_correct_le m.evalMode criterion loader
    nlinarith
  · show 0 ≤ (testAccum m.evalMode criterion loader).1 / (datasetSize loader : ℚ)
    exact div_nonneg (testAccum_loss_nonneg m.evalMode criterion hc loader)
      (le_of_lt hnpos)

/-- Witness for C6 (amended) on a one-sample loader with the constant
criterion `1`. -/
theorem test_metrics_in_range_witness :
    (1 ≤ datasetSize [[Sample.mk [1] 0]] ∧
      ∀ os ts, 0 ≤ (fun (_ : List (List ℚ)) (_ : List Nat) => (1 : ℚ)) os ts) ∧
    (0 ≤ (test (Resnet.init 2) [[Sample.mk [1] 0]] (fun _ _ => 1)).accuracy ∧
     (test (Resnet.init 2) [[Sample.mk [1] 0]] (fun _ _ => 1)).accuracy ≤ 100 ∧
     0 ≤ (test (Resnet.init 2) [[Sample.mk [1] 0]] (fun _ _ => 1)).test_loss) :=
  ⟨⟨Nat.le_refl 1, fun _ _ => by norm_num⟩,
    test_metrics_in_range (Resnet.init 2) [[Sample.mk [1] 0]] (fun _ _ => 1)
      (Nat.le_refl 1) (fun _ _ => by norm_num)⟩

/-- Modelled from the framework the script uses: `nn.CrossEntropyLoss()`
(line 172) with its default `reduction='mean'` — the value returned for a
batch is the mean over the batch of a per-sample loss. -/
def meanCriterion (perSample : List ℚ → Nat → ℚ)
    (outputs : List (List ℚ)) (targets : List Nat) : ℚ :=
  ((outputs.zip targets).map (fun p => perSample p.1 p.2)).sum /
    (outputs.length : ℚ)

/-- Sum over the loader of each batch's mean loss, with model outputs
computed in inference mode as they are inside `test`. -/
def batchMeanLossSum (m : Resnet) (perSample : List ℚ → Nat → ℚ)
    (loader : List (List Sample)) : ℚ :=
  (loader.map (fun batch =>
    meanCriterion perSample (batch.map (fun s => m.forward s.image))
      (batch.map Sample.label))).sum

/-- Sum of the per-sample losses of every sample in the loader. -/
def perSampleLossSum (m : Resnet) (perSample : List ℚ → Nat → ℚ)
    (loader : List (List Sample)) : ℚ :=
  (loader.map (fun batch =>
    (batch.map (fun s => perSample (m.forward s.image) s.label)).sum)).sum

theorem testAccum_loss_eq_batchMeanLossSum (m : Resnet)
    (f : List ℚ → Nat → ℚ) :
    ∀ loader : List (List Sample),
      (testAccum m (meanCriterion f) loader).1 = batchMeanLossSum m f loader := by
  intro loader
  induction loader with
  | nil => rfl
  | cons batch rest ih =>
      show meanCriterion f (batch.map (fun s => m.forward s.image))
          (batch.map Sample.label) + (testAccum m (meanCriterion f) rest).1 =
        batchMeanLossSum m f (batch :: rest)
      unfold batchMeanLossSum
      rw [List.map_cons, List.sum_cons, ih]
      rfl

theorem meanCriterion_of_batch (m : Resnet) (f : List ℚ → Nat → ℚ)
    (batch : List Sample) :
    meanCriterion f (batch.map (fun s => m.forward s.image))
        (batch.map Sample.label) =
      (batch.map (fun s => f (m.forward s.image) s.label)).sum /
        (batch.length : ℚ) := by
  unfold meanCriterion
  rw [List.zip_map', List.map_map, List.length_map]
  rfl

theorem map_div_sum (B : ℚ) :
    ∀ l : List ℚ, (l.map (fun x => x / B)).sum = l.sum / B := by
  intro l
  induction l with
  | nil => simp
  | cons x xs ih => simp [ih, add_div]

/-- C10: the "Average loss" reported by `test` equals the sum over the
validation batches of each batch's mean loss divided by the total number of
validation samples (not the per-sample mean loss); consequently, when every
batch has size `B`, the reported value is exactly the true per-sample
average loss divided by `B`. -/
theorem avg_loss_is_scaled_batch_mean (m : Resnet) (loader : List (List Sample))
    (f : List ℚ → Nat → ℚ) (B : Nat) (hB : 1 ≤ B)
    (hsz : ∀ batch ∈ loader, batch.length = B) :
    (test m loader (meanCriterion f)).test_loss =
      batchMeanLossSum m.evalMode f loader / (datasetSize loader : ℚ) ∧
    (test m loader (meanCriterion f)).test_loss =
      (perSampleLossSum m.evalMode f loader / (datasetSize loader : ℚ)) /
        (B : ℚ) := by
  have h1 : (test m loader (meanCriterion f)).test_loss =
      batchMeanLossSum m.evalMode f loader / (datasetSize loader : ℚ) := by
    show (testAccum m.evalMode (meanCriterion f) loader).1 /
        (datasetSize loader : ℚ) = _
    rw [testAccum_loss_eq_batchMeanLossSum]
  refine ⟨h1, ?_⟩
  rw [h1]
  have h2 : batchMeanLossSum m.evalMode f loader =
      perSampleLossSum m.evalMode f loader / (B : ℚ) := by
    unfold batchMeanLossSum perSampleLossSum
    have hmap : loader.map (fun batch =>
        meanCriterion f (batch.map (fun s => m.evalMode.forward s.image))
          (batch.map Sample.label)) =
        loader.map (fun batch =>
          (batch.map (fun s => f (m.evalMode.forward s.image) s.label)).sum /
            (B : ℚ)) := by
      apply List.map_congr_left
      intro batch hbatch
      rw [meanCriterion_of_batch, hsz batch hbatch]
    rw [hmap]
    have := map_div_sum (B : ℚ)
      (loader.map (fun batch =>
        (batch.map (fun s => f (m.evalMode.forward s.image) s.label)).sum))
    rw [List.map_map] at this
    exact this
  rw [h2, div_div, div_div, mul_comm]

/-- Witness for C10 on a two-sample single-batch loader with `B = 2`. -/
theorem avg_loss_is_scaled_batch_mean_witness :
    (1 ≤ 2 ∧ ∀ batch ∈ [[Sample.mk [1] 0, Sample.mk [2] 1]],
        List.length batch = 2) ∧
    ((test (Resnet.init 2) [[Sample.mk [1] 0, Sample.mk [2] 1]]
        (meanCriterion (fun sc t => sc.sum + (t : ℚ)))).test_loss =
      batchMeanLossSum (Resnet.init 2).evalMode (fun sc t => sc.sum + (t : ℚ))
          [[Sample.mk [1] 0, Sample.mk [2] 1]] /
        (datasetSize [[Sample.mk [1] 0, Sample.mk [2] 1]] : ℚ) ∧
     (test (Resnet.init 2) [[Sample.mk [1] 0, Sample.mk [2] 1]]
        (meanCriterion (fun sc t => sc.sum + (t : ℚ)))).test_loss =
      (perSampleLossSum (Resnet.init 2).evalMode (fun sc t => sc.sum + (t : ℚ))
          [[Sample.mk [1] 0, Sample.mk [2] 1]] /
        (datasetSize [[Sample.mk [1] 0, Sample.mk [2] 1]] : ℚ)) / (2 : ℚ)) :=
  ⟨⟨by omega, fun batch hb => by
      rw [List.mem_singleton] at hb
      rw [hb]
      rfl⟩,
    avg_loss_is_scaled_batch_mean (Resnet.init 2)
      [[Sample.mk [1] 0, Sample.mk [2] 1]] (fun sc t => sc.sum + (t : ℚ)) 2
      (by omega)
      (fun batch hb => by
        rw [List.mem_singleton] at hb
        rw [hb]
        rfl)⟩

/-- Batching recursion with explicit fuel (the fuel is an upper bound on the
list length, so it never runs out when instantiated by `chunks`). -/
def chunksGo {a : Type} (B : Nat) : Nat → List a → List (List a)
  | _, [] => []
  | 0, _ :: _ => []
  | fuel + 1, x :: xs => ((x :: xs).take B) :: chunksGo B fuel ((x :: xs).drop B)

/-- Modelled from the framework the script uses: `torch.utils.data.DataLoader`
(lines 61-69) with the default `drop_last=False` splits the (shuffled)
dataset into consecutive batches of `batch_size` samples, the final batch
possibly smaller. -/
def chunks {a : Type} (B : Nat) (l : List a) : List (List a) :=
  chunksGo B l.length l

theorem chunksGo_flatten {a : Type} (B : Nat) (hB : 1 ≤ B) :
    ∀ (fuel : Nat) (l : List a), l.length ≤ fuel →
      (chunksGo B fuel l).flatten = l := by
  intro fuel
  induction fuel with
  | zero =>
      intro l hl
      have : l = [] := List.length_eq_zero.mp (Nat.le_zero.mp hl)
      subst this
      rfl
  | succ fuel ih =>
      intro l hl
      cases l with
      | nil => rfl
      | cons x xs =>
          show (((x :: xs).take B) :: chunksGo B fuel ((x :: xs).drop B)).flatten
              = x :: xs
          rw [List.flatten_cons]
          rw [ih ((x :: xs).drop B)
            (by
              rw [List.length_drop]
              simp only [List.length_cons] at hl ⊢
              omega)]
          exact List.take_append_drop B (x :: xs)

theorem chunksGo_length {a : Type} (B : Nat) (hB : 1 ≤ B) :
    ∀ (fuel : Nat) (l : List a), l.length ≤ fuel →
      (chunksGo B fuel l).length = (l.length + B - 1) / B := by
  intro fuel
  induction fuel with
  | zero =>
      intro l hl
      have : l = [] := List.length_eq_zero.mp (Nat.le_zero.mp hl)
      subst this
      show 0 = (0 + B - 1) / B
      rw [Nat.div_eq_of_lt (by omega)]
  | succ fuel ih =>
      intro l hl
      cases l with
      | nil =>
          show 0 = (0 + B - 1) / B
          rw [Nat.div_eq_of_lt (by omega)]
      | cons x xs =>
          show (((x :: xs).take B) :: chunksGo B fuel ((x :: xs).drop B)).length
              = ((x :: xs).length + B - 1) / B
          rw [List.length_cons,
            ih ((x :: xs).drop B)
              (by
                rw [List.length_drop]
                simp only [List.length_cons] at hl ⊢
                omega),
            List.length_drop]
          have hn : 1 ≤ (x :: xs).length := by
            simp only [List.length_cons]
            omega
          rcases le_or_lt (x :: xs).length B with hle | hgt
          · have h0 : (x :: xs).length - B = 0 := by omega
            rw [h0]
            rw [Nat.div_eq_of_lt (by omega)]
            have hrw : (x :: xs).length + B - 1 = ((x :: xs).length - 1) + B := by
              omega
            rw [hrw, Nat.add_div_right _ (by omega),
              Nat.div_eq_of_lt (by omega)]
          · have hrw1 : (x :: xs).length - B + B - 1 = (x :: xs).length - 1 := by
              omega
            have hrw2 : (x :: xs).length + B - 1 = ((x :: xs).length - 1) + B := by
              omega
            rw [hrw1, hrw2, Nat.add_div_right _ (by omega)]

theorem chunksGo_ne_nil {a : Type} (B fuel : Nat) (l : List a)
    (hl : l.length ≤ fuel) (hne : l ≠ []) : chunksGo B fuel l ≠ [] := by
  cases l with
  | nil => exact absurd rfl hne
  | cons x xs =>
      cases fuel with
      | zero =>
          simp only [List.length_cons] at hl
          omega
      | succ fuel => exact List.cons_ne_nil _ _

theorem chunksGo_sizes {a : Type} (B : Nat) (hB : 1 ≤ B) :
    ∀ (fuel : Nat) (l : List a), l.length ≤ fuel →
      ∀ c ∈ (chunksGo B fuel l).dropLast, c.length = B := by
  intro fuel
  induction fuel with
  | zero =>
      intro l hl c hc
      have : l = [] := List.length_eq_zero.mp (Nat.le_zero.mp hl)
      subst this
      simp [chunksGo] at hc
  | succ fuel ih =>
      intro l hl c hc
      cases l with
      | nil => simp [chunksGo] at hc
      | cons x xs =>
          have hshape : chunksGo B (fuel + 1) (x :: xs) =
              ((x :: xs).take B) :: chunksGo B fuel ((x :: xs).drop B) := rfl
          rw [hshape] at hc
          have hdroplen : ((x :: xs).drop B).length ≤ fuel := by
            rw [List.length_drop]
            simp only [List.length_cons] at hl ⊢
            omega
          by_cases hrest : (x :: xs).drop B = []
          · rw [hrest] at hc
            simp [chunksGo] at hc
          · have hrestne : chunksGo B fuel ((x :: xs).drop B) ≠ [] :=
              chunksGo_ne_nil B fuel _ hdroplen hrest
            rw [List.dropLast_cons_of_ne_nil hrestne] at hc
            rcases List.mem_cons.mp hc with hc1 | hc2
            · subst hc1
              rw [List.length_take]
              have hlong : B < (x :: xs).length := by
                by_contra hcon
                apply hrest
                apply List.drop_eq_nil_of_le
                omega
              omega
            · exact ih _ hdroplen c hc2

/-- Errors raised during dataset/loader construction. -/
inductive LoaderError where
  | datasetNotFound
deriving DecidableEq

/-- Modelled from the framework the script uses:
`torchvision.datasets.ImageFolder` (lines 58-59) raises a dataset-not-found
error when the directory is missing or contains no samples; otherwise it
yields the directory's (image, label) samples.  A directory argument is
embedded as `none` (missing) or `some samples` (its contents). -/
def imageFolder (dir : Option (List Sample)) : Except LoaderError (List Sample) :=
  match dir with
  | none => Except.error LoaderError.datasetNotFound
  | some samples =>
      if samples.isEmpty then Except.error LoaderError.datasetNotFound
      else Except.ok samples

/-- The loaders built by `_get_train_data_loader` (lines 50-71): the
underlying dataset, the configured `batch_size`, and `shuffle=True`. -/
structure DataLoader where
  dataset : List Sample
  batch_size : Nat
  shuffle : Bool
deriving DecidableEq

/-- One per-epoch pass of a loader: the dataset in its shuffled order for
that epoch, split into consecutive batches of `batch_size` samples (the
final batch possibly smaller) — `torch.utils.data.DataLoader` semantics with
the default `drop_last=False`. -/
def DataLoader.epochPass (dl : DataLoader) (perm : List Sample) :
    List (List Sample) :=
  chunks dl.batch_size perm

/-- `_get_train_data_loader(batch_size, training_dir, test_dir)` (lines
50-71): build the training `ImageFolder`, then the validation `ImageFolder`,
then wrap each dataset in a shuffling loader of the given batch size. -/
def get_train_data_loader (batch_size : Nat)
    (training_dir test_dir : Option (List Sample)) :
    Except LoaderError (DataLoader × DataLoader) := do
  let train_data ← imageFolder training_dir
  let test_data ← imageFolder test_dir
  Except.ok (DataLoader.mk train_data batch_size true,
    DataLoader.mk test_data batch_size true)

/-- C4: for every dataset of `N ≥ 1` samples and batch size `B ≥ 1`, a
per-epoch pass of the loader over the epoch's shuffled order yields exactly
`ceil(N/B) = (N + B - 1) / B` batches, every batch except possibly the last
has exactly `B` samples, and the emitted samples are exactly the dataset's
samples — each appears exactly once per epoch (the concatenation of the
batches is a permutation of the dataset). -/
theorem loader_epoch_shape (dl : DataLoader) (perm : List Sample)
    (hB : 1 ≤ dl.batch_size) (hN : 1 ≤ dl.dataset.length)
    (hperm : perm.Perm dl.dataset) :
    (dl.epochPass perm).length =
      (dl.dataset.length + dl.batch_size - 1) / dl.batch_size ∧
    (∀ c ∈ (dl.epochPass perm).dropLast, c.length = dl.batch_size) ∧
    ((dl.epochPass perm).flatten).Perm dl.dataset := by
  have hlen : perm.length = dl.dataset.length := hperm.length_eq
  refine ⟨?_, ?_, ?_⟩
  · show (chunksGo dl.batch_size perm.length perm).length = _
    rw [chunksGo_length dl.batch_size hB perm.length perm (Nat.le_refl _), hlen]
  · intro c hc
    exact chunksGo_sizes dl.batch_size hB perm.length perm (Nat.le_refl _) c hc
  · show (chunksGo dl.batch_size perm.length perm).flatten.Perm dl.dataset
    rw [chunksGo_flatten dl.batch_size hB perm.length perm (Nat.le_refl _)]
    exact hperm

/-- Witness for C4: a three-sample dataset, batch size 2, and a rotated
shuffle order. -/
theorem loader_epoch_shape_witness :
    (1 ≤ (DataLoader.mk
        [Sample.mk [1] 0, Sample.mk [2] 1, Sample.mk [3] 0] 2 true).batch_size ∧
     1 ≤ (DataLoader.mk
        [Sample.mk [1] 0, Sample.mk [2] 1, Sample.mk [3] 0] 2 true).dataset.length ∧
     List.Perm [Sample.mk [2] 1, Sample.mk [3] 0, Sample.mk [1] 0]
       (DataLoader.mk
         [Sample.mk [1] 0, Sample.mk [2] 1, Sample.mk [3] 0] 2 true).dataset) ∧
    (((DataLoader.mk [Sample.mk [1] 0, Sample.mk [2] 1, Sample.mk [3] 0] 2
          true).epochPass
        [Sample.mk [2] 1, Sample.mk [3] 0, Sample.mk [1] 0]).length = (3 + 2 - 1) / 2 ∧
     (∀ c ∈ ((DataLoader.mk [Sample.mk [1] 0, Sample.mk [2] 1, Sample.mk [3] 0] 2
          true).epochPass
        [Sample.mk [2] 1, Sample.mk [3] 0, Sample.mk [1] 0]).dropLast,
        c.length = 2) ∧
     (((DataLoader.mk [Sample.mk [1] 0, Sample.mk [2] 1, Sample.mk [3] 0] 2
          true).epochPass
        [Sample.mk [2] 1, Sample.mk [3] 0, Sample.mk [1] 0]).flatten).Perm
       [Sample.mk [1] 0, Sample.mk [2] 1, Sample.mk [3] 0]) :=
  ⟨⟨by decide, by decide,
    by
      show List.Perm ([Sample.mk [1] 0, Sample.mk [2] 1, Sample.mk [3] 0].rotate 1)
        [Sample.mk [1] 0, Sample.mk [2] 1, Sample.mk [3] 0]
      exact List.rotate_perm _ 1⟩,
    loader_epoch_shape
      (DataLoader.mk [Sample.mk [1] 0, Sample.mk [2] 1, Sample.mk [3] 0] 2 true)
      [Sample.mk [2] 1, Sample.mk [3] 0, Sample.mk [1] 0]
      (by decide) (by decide)
      (by
        have h1 : [Sample.mk [2] 1, Sample.mk [3] 0, Sample.mk [1] 0]
            = [Sample.mk [1] 0, Sample.mk [2] 1, Sample.mk [3] 0].rotate 1 := rfl
        rw [h1]
        exact List.rotate_perm _ 1)⟩

/-- The training CLI configuration (lines 138-159).  The four directory
paths are represented by the directory contents handed to `runMain`; the
scalar flags are recorded here. -/
structure Config where
  batch_size : Nat
  epochs : Nat
  seed : Nat
  lr : ℚ
  output_dim : Nat
deriving DecidableEq

/-- Default values of the training CLI flags (lines 146-156): `--batch-size`
20, `--epochs` 2, `--seed` 1, `--lr` 0.001, `--output_dim` 3. -/
def defaultConfig : Config :=
  { batch_size := 20, epochs := 2, seed := 1, lr := 1 / 1000, output_dim := 3 }

/-- `torch.manual_seed(args.seed)` (line 164): the global RNG state is a
deterministic function of the seed alone. -/
def manualSeed (seed : Nat) : Nat := seed

/-- Modelled from the framework the script uses: one draw from the seeded
global RNG (a linear congruential step), returning the drawn value together
with the successor state. -/
def nextRand (state : Nat) : Nat × Nat :=
  ((state * 1103515245 + 12345) % 4294967296,
   (state * 1103515245 + 12345) % 4294967296)

/-- Modelled from the framework the script uses: the per-epoch reshuffle a
`DataLoader(shuffle=True)` performs — a permutation of the dataset selected
by the global RNG, embedded as a rotation by the drawn value. -/
def shuffleDraw (state : Nat) (l : List Sample) : List Sample × Nat :=
  (l.rotate (nextRand state).1, (nextRand state).2)

/-- The SGD optimizer `optim.SGD(model.parameters(), lr=...)`: its only
observable configuration here is the learning rate. -/
structure SGD where
  lr : ℚ
deriving DecidableEq

/-- Modelled from the spec: the backward pass of the external model
collaborator — the gradient of the batch loss with respect to each
parameter, a concrete deterministic stand-in. -/
def gradOf (m : Resnet) (batch : List Sample) : List ℚ :=
  m.params.map (fun p =>
    p * (batch.length : ℚ) - (batch.map (fun s => s.image.sum)).sum)

/-- One gradient step of the inner batch loop (lines 114-122):
`optimizer.zero_grad()`, forward pass, loss computation, `loss.backward()`,
`optimizer.step()` — the update `p := p - lr * g` for each parameter. -/
def sgdStep (opt : SGD) (m : Resnet) (batch : List Sample) : Resnet :=
  { m with params :=
      List.zipWith (fun p g => p - opt.lr * g) m.params (gradOf m batch) }

/-- The inner batch loop of one epoch (lines 109-130), processing the
epoch's batches in order. -/
def trainEpoch (opt : SGD) (m : Resnet) (batches : List (List Sample)) :
    Resnet :=
  batches.foldl (sgdStep opt) m

/-- The epoch loop of `train` (lines 104-130), threading the RNG state the
shuffling train loader consumes; processes the given number of epochs in
order: `model.train()`, then one gradient step per batch of that epoch's
shuffle. -/
def trainLoop (opt : SGD) (dl : DataLoader) : Nat → Nat → Resnet → Resnet × Nat
  | rng, 0, m => (m, rng)
  | rng, count + 1, m =>
      trainLoop opt dl (shuffleDraw rng dl.dataset).2 count
        (trainEpoch opt m.trainMode (dl.epochPass (shuffleDraw rng dl.dataset).1))

/-- Modelled from the spec: the per-sample content of the cross-entropy
criterion `nn.CrossEntropyLoss()` (line 172), whose analytic form lives in
the external framework — a concrete rational-valued stand-in. -/
def ceSample (scores : List ℚ) (target : Nat) : ℚ :=
  scores.sum - scores.getD target 0 + 1

/-- Outcome of a completed run of `__main__`: the optimizer it constructed,
the model after training and evaluation, the final reported loss and
accuracy, and the two persisted artifact files. -/
structure RunResult where
  optimizer : SGD
  model : Resnet
  finalLoss : ℚ
  finalAccuracy : ℚ
  saved : SavedArtifacts

/-- The `__main__` block (lines 135-191): parse the configuration, seed the
RNG (line 164), build the two loaders (line 167, failing there when a data
directory is missing or empty), construct `Resnet(args.output_dim)` (line
169), the cross-entropy criterion (line 172) and
`optim.SGD(model.parameters(), lr=0.001)` (line 174 — the hard-coded
literal, not `args.lr`), run `train` (line 177), whose final action is the
evaluation pass over a shuffle of the validation set, and write the two
artifact files (lines 179-191).  Returns the training-loop event trace
together with the outcome; when loader construction fails nothing after it
executes, so the trace is empty and no artifact is produced. -/
def runMain (cfg : Config) (data_dir valid_dir : Option (List Sample)) :
    List Event × Except LoaderError RunResult :=
  let rng := manualSeed cfg.seed
  match get_train_data_loader cfg.batch_size data_dir valid_dir with
  | Except.error e => ([], Except.error e)
  | Except.ok (train_loader, test_loader) =>
      let model := Resnet.init cfg.output_dim
      let optimizer : SGD := { lr := 1 / 1000 }
      let numBatches :=
        (train_loader.dataset.length + cfg.batch_size - 1) / cfg.batch_size
      let result := trainLoop optimizer train_loader rng cfg.epochs model
      let validShuffle := shuffleDraw result.2 test_loader.dataset
      let evalResult := test result.1 (test_loader.epochPass validShuffle.1)
          (meanCriterion ceSample)
      (trainEvents cfg.epochs numBatches,
       Except.ok
         { optimizer := optimizer, model := evalResult.model,
           finalLoss := evalResult.test_loss,
           finalAccuracy := evalResult.accuracy,
           saved := save_artifacts cfg.output_dim evalResult.model })

/-- Learning rate of the optimizer constructed by a run whose loader
construction succeeds. -/
def runOptimizerLr (cfg : Config) (data_dir valid_dir : Option (List Sample)) :
    Option ℚ :=
  match (runMain cfg data_dir valid_dir).2 with
  | Except.ok r => some r.optimizer.lr
  | Except.error _ => none

/-- C1 (code bug): a run configured with `--lr 0.01` still constructs its
SGD optimizer with learning rate `0.001` — line 174 hard-codes `lr=0.001`
instead of passing `args.lr`, so the effective learning rate does not equal
the declared configuration value `args.lr`. -/
theorem lr_flag_ignored :
    runOptimizerLr { defaultConfig with lr := 1 / 100 }
        (some [Sample.mk [1] 0]) (some [Sample.mk [1] 0]) = some (1 / 1000) ∧
    ({ defaultConfig with lr := 1 / 100 } : Config).lr = 1 / 100 ∧
    ((1 : ℚ) / 1000) ≠ (1 : ℚ) / 100 :=
  ⟨rfl, rfl, by norm_num⟩

/-- C8: if the training directory or the validation directory is missing or
empty, the run fails with the dataset-not-found error raised during loader
construction, and the training-event trace is empty — no training step, no
parameter update and no evaluation has occurred. -/
theorem missing_dataset_fails_before_training (cfg : Config)
    (data_dir valid_dir : Option (List Sample))
    (h : data_dir = none ∨ data_dir = some [] ∨
      valid_dir = none ∨ valid_dir = some []) :
    (runMain cfg data_dir valid_dir).2 =
      Except.error LoaderError.datasetNotFound ∧
    (runMain cfg data_dir valid_dir).1 = [] := by
  have hload : get_train_data_loader cfg.batch_size data_dir valid_dir =
      Except.error LoaderError.datasetNotFound := by
    rcases h with h | h | h | h
    · subst h
      rfl
    · subst h
      rfl
    · subst h
      rcases hid : imageFolder data_dir with e | td
      · cases e
        unfold get_train_data_loader
        rw [hid]
        rfl
      · unfold get_train_data_loader
        rw [hid]
        rfl
    · subst h
      rcases hid : imageFolder data_dir with e | td
      · cases e
        unfold get_train_data_loader
        rw [hid]
        rfl
      · unfold get_train_data_loader
        rw [hid]
        rfl
  constructor
  · show (runMain cfg data_dir valid_dir).2 = _
    unfold runMain
    rw [hload]
  · show (runMain cfg data_dir valid_dir).1 = _
    unfold runMain
    rw [hload]

/-- Witness for C8: default configuration, a one-sample training directory,
and a missing validation directory. -/
theorem missing_dataset_fails_before_training_witness :
    ((some [Sample.mk [1] 0] : Option (List Sample)) = none ∨
      (some [Sample.mk [1] 0] : Option (List Sample)) = some [] ∨
      (none : Option (List Sample)) = none ∨
      (none : Option (List Sample)) = some []) ∧
    ((runMain defaultConfig (some [Sample.mk [1] 0]) none).2 =
        Except.error LoaderError.datasetNotFound ∧
     (runMain defaultConfig (some [Sample.mk [1] 0]) none).1 = []) :=
  ⟨Or.inr (Or.inr (Or.inl rfl)),
    missing_dataset_fails_before_training defaultConfig
      (some [Sample.mk [1] 0]) none (Or.inr (Or.inr (Or.inl rfl)))⟩

/-- C9: the embedded program is a deterministic function of its
configuration (which includes the seed — all randomness is drawn from the
RNG state `torch.manual_seed(args.seed)` initialises) and of the contents of
its data directories: two runs with equal configurations and equal datasets
produce identical outcomes, in particular identical final loss values. -/
theorem run_deterministic (cfg1 cfg2 : Config)
    (td1 vd1 td2 vd2 : Option (List Sample))
    (hc : cfg1 = cfg2) (ht : td1 = td2) (hv : vd1 = vd2) :
    runMain cfg1 td1 vd1 = runMain cfg2 td2 vd2 := by
  rw [hc, ht, hv]

/-- Witness for C9 at the default configuration and a concrete dataset. -/
theorem run_deterministic_witness :
    (defaultConfig = defaultConfig ∧
      (some [Sample.mk [1] 0] : Option (List Sample)) = some [Sample.mk [1] 0] ∧
      (some [Sample.mk [2] 1] : Option (List Sample)) = some [Sample.mk [2] 1]) ∧
    runMain defaultConfig (some [Sample.mk [1] 0]) (some [Sample.mk [2] 1]) =
      runMain defaultConfig (some [Sample.mk [1] 0]) (some [Sample.mk [2] 1]) :=
  ⟨⟨rfl, rfl, rfl⟩,
    run_deterministic defaultConfig defaultConfig
      (some [Sample.mk [1] 0]) (some [Sample.mk [2] 1])
      (some [Sample.mk [1] 0]) (some [Sample.mk [2] 1]) rfl rfl rfl⟩

end TrainResnet
